import Mathlib

/-!
Verification of the stream-to-message chunker, drive loop and history store
of the seras-code telegram bot, via a shallow embedding of the Rust source
(src/parser.rs, src/main.rs, src/history.rs) into Lean.

Lines and buffers are modelled as lists of characters; Rust
str.chars().count() is List.length.
-/

namespace SerasBot

/-- a line of input, without its terminating newline -/
abbrev Line := List Char

/-- the code-fence marker, three backticks (src/parser.rs CODE_GUARD) -/
def CODE_GUARD : Line := ['\x60', '\x60', '\x60']

/-- src/parser.rs MSG_CHUNK_LEN -/
def MSG_CHUNK_LEN : Nat := 500

/-- src/parser.rs MSG_MAX_LEN -/
def MSG_MAX_LEN : Nat := 4000

/-- the state of src/parser.rs MessageParserState -/
structure MessageParserState where
  buffer : List Char
  text : List Char
  is_complete : Bool
  lang : List Char
  is_in_code_block : Bool
  chunk_goal_n : Nat
deriving DecidableEq, Repr

/-- src/parser.rs MessageParserState::check_overflow -/
def check_overflow (s : MessageParserState) (line : Line) : Bool :=
  decide (MSG_MAX_LEN < s.buffer.length + line.length)

/-- src/parser.rs MessageParserState::get_n_chunks -/
def get_n_chunks (s : MessageParserState) : Nat :=
  s.buffer.length / MSG_CHUNK_LEN

/-- src/parser.rs MessageParserState::insert_line: push the line and a newline -/
def insert_line (s : MessageParserState) (line : Line) : MessageParserState :=
  { s with buffer := s.buffer ++ line ++ ['\n'] }

/-- src/parser.rs MessageParserState::finalize -/
def finalize (s : MessageParserState) : MessageParserState :=
  let s1 := if s.is_in_code_block then insert_line s CODE_GUARD else s
  { s1 with text := s1.buffer, buffer := [], is_complete := true }

/-- src/parser.rs MessageParserState::handle -/
def handle (s : MessageParserState) (line : Line) : MessageParserState :=
  let is_overflow := check_overflow s line
  let s1 := if is_overflow then finalize s else { s with is_complete := false }
  if CODE_GUARD.isPrefixOf line then
    let s2 := { s1 with is_in_code_block := !s1.is_in_code_block }
    let s3 :=
      if s2.is_in_code_block then { s2 with lang := line.drop CODE_GUARD.length } else s2
    insert_line s3 line
  else if is_overflow && s1.is_in_code_block then
    insert_line (insert_line s1 (CODE_GUARD ++ s1.lang)) line
  else
    insert_line s1 line

/-- the initial state built by src/parser.rs MessageParser::new
(Default::default with chunk_goal_n overridden to 1) -/
def parser_init : MessageParserState :=
  { buffer := [], text := [], is_complete := false, lang := [],
    is_in_code_block := false, chunk_goal_n := 1 }

/-- src/parser.rs MessageParser::next_state: consume lines until a state is
emitted; returns the emitted state (None once the stream is exhausted and the
state is complete) together with the remaining lines and the updated state. -/
def next_state : List Line → MessageParserState →
    Option MessageParserState × (List Line × MessageParserState)
  | [], st =>
      if st.is_complete then (none, ([], st))
      else
        let st1 := finalize st
        (some st1, ([], st1))
  | line :: rest, st =>
      let st1 := handle st line
      if st1.chunk_goal_n ≤ get_n_chunks st1 then
        let st2 := { st1 with chunk_goal_n := st1.chunk_goal_n + 1 }
        (some st2, (rest, st2))
      else if st1.is_complete then
        let st2 := { st1 with chunk_goal_n := 1 }
        (some st2, (rest, st2))
      else
        next_state rest st1

/-- the list of all states emitted by repeatedly calling next_state until it
returns None (proved equivalent to iterating next_state in
drain_eq_next_state) -/
def drain : List Line → MessageParserState → List MessageParserState
  | [], st => if st.is_complete then [] else [finalize st]
  | line :: rest, st =>
      let st1 := handle st line
      if st1.chunk_goal_n ≤ get_n_chunks st1 then
        let st2 := { st1 with chunk_goal_n := st1.chunk_goal_n + 1 }
        st2 :: drain rest st2
      else if st1.is_complete then
        let st2 := { st1 with chunk_goal_n := 1 }
        st2 :: drain rest st2
      else
        drain rest st1

/-- the transport actions performed by src/main.rs handle_msg: the typing
chat action, send_message (create, returning a message id) and
edit_message_text of a held id -/
inductive Action where
  | typing
  | create (text : List Char)
  | edit (id : Nat) (text : List Char)
deriving DecidableEq, Repr

/-- one item of the model backend stream: an Ok text fragment or a stream
error (the mapped ollama stream in src/main.rs handle_msg) -/
abbrev StreamItem := Except Unit (List Char)

/-- the inner while-let loop of src/main.rs handle_msg: while the stream
yields Ok fragments, append the fragment to the accumulated text and edit the
held message id with the whole text; the loop exits silently at the first
non-Ok item or at end of stream -/
def edit_loop (id : Nat) : List Char → List StreamItem → List Action
  | _, [] => []
  | text, Except.ok line :: rest =>
      Action.edit id (text ++ line) :: edit_loop id (text ++ line) rest
  | _, Except.error _ :: _ => []

/-- src/main.rs handle_msg, with the transport calls modelled as always
succeeding and recorded as a trace of actions: send the typing indicator,
then if the first stream item is Ok, create a message (its id modelled as 0)
and run the edit loop. The Bool is the returned result, true for Ok(()): every
path of the source returns Ok when the transport calls succeed. -/
def handle_msg : List StreamItem → List Action × Bool
  | Except.ok line :: rest =>
      (Action.typing :: Action.create line :: edit_loop 0 line rest, true)
  | _ => ([Action.typing], true)

/-- a telegram chat id (teloxide ChatId is an i64) -/
abbrev ChatId := Int

/-- an ollama chat message, a role together with its content -/
structure ChatMessage where
  role : List Char
  content : List Char
deriving DecidableEq, Repr

/-- the map held by src/history.rs History, modelled as an association list
with at most one entry per key (HashMap of ChatId to the message list) -/
abbrev MessagesHashMap := List (ChatId × List ChatMessage)

/-- HashMap::get on the association-list model -/
def history_lookup : MessagesHashMap → ChatId → Option (List ChatMessage)
  | [], _ => none
  | (k, v) :: rest, cid => if k = cid then some v else history_lookup rest cid

/-- src/history.rs History::get: entry(chat_id).or_default() inserts an empty
list when the id is absent, then the conversation's messages are returned -/
def history_get (m : MessagesHashMap) (cid : ChatId) :
    List ChatMessage × MessagesHashMap :=
  match history_lookup m cid with
  | some v => (v, m)
  | none => ([], (cid, []) :: m)

/-- src/history.rs History::clear: if the id has an entry, empty that entry's
message list; otherwise do nothing -/
def history_clear : MessagesHashMap → ChatId → MessagesHashMap
  | [], _ => []
  | (k, v) :: rest, cid =>
      if k = cid then (k, []) :: rest else (k, v) :: history_clear rest cid

/-- the lines of an emitted chunk, split at newline characters -/
def msg_lines (t : List Char) : List (List Char) :=
  t.splitOn '\n'

/-- how many lines of a chunk start with the code-fence marker; such lines
are exactly the ones src/parser.rs treats as fence toggles -/
def fence_line_count (t : List Char) : Nat :=
  (msg_lines t).countP (fun l => CODE_GUARD.isPrefixOf l)

/-- a chunk ends inside an open code fence when it contains an odd number of
fence-marker lines -/
def ends_in_open_fence (t : List Char) : Bool :=
  decide (fence_line_count t % 2 = 1)

/-- concrete inputs used by the claims -/
def demo_hello : List Line := [['h','e','l','l','o'], ['w','o','r','l','d']]

def hello_world_text : List Char :=
  ['h','e','l','l','o','\n','w','o','r','l','d','\n']

def line4000 : Line := List.replicate 4000 'a'

def fence_q : Line := CODE_GUARD ++ ['q']

def body3995 : Line := List.replicate 3995 'a'

def fence_seal_input : List Line := [fence_q, body3995, CODE_GUARD, ['b']]

def lost_line_input : List Line := [fence_q, body3995, ['b']]

def goal_seal_input : List Line :=
  [List.replicate 600 'a', List.replicate 3600 'a']

def sealed_empty : MessageParserState :=
  { buffer := [], text := [], is_complete := true, lang := [],
    is_in_code_block := false, chunk_goal_n := 1 }

/-- the length invariant maintained by the parser when every input line fits
in one chunk unit: the buffer can exceed the hard ceiling by at most the
trailing newline that check_overflow does not count, and a sealed text
additionally by a closing fence line -/
def StateBound (s : MessageParserState) : Prop :=
  s.buffer.length ≤ MSG_MAX_LEN + 1 ∧
  s.text.length ≤ MSG_MAX_LEN + 5 ∧
  s.lang.length + CODE_GUARD.length ≤ MSG_CHUNK_LEN

/-- the single sealed text produced on the lost_line_input stream -/
def c4_sealed_text : List Char :=
  CODE_GUARD ++ ['q', '\n'] ++ body3995 ++ ['\n'] ++ CODE_GUARD ++ ['\n']

def frag_a : List Char := List.replicate 3000 'a'

def frag_b : List Char := List.replicate 3000 'b'

def frag_c : List Char := List.replicate 3000 'c'

/-- whether a stream item is an Ok fragment -/
def is_ok_item : StreamItem → Bool
  | Except.ok _ => true
  | Except.error _ => false

/-- whether an action is a send_message call -/
def is_create : Action → Bool
  | Action.create _ => true
  | _ => false

def msg_u : ChatMessage := { role := ['u'], content := ['h', 'i'] }

@[simp]
theorem finalize_is_complete (s : MessageParserState) :
    (finalize s).is_complete = true := by
  unfold finalize
  by_cases h : s.is_in_code_block = true <;> simp [h]

theorem drain_eq_next_state (lines : List Line) (st : MessageParserState) :
    drain lines st =
      match next_state lines st with
      | (none, _) => []
      | (some s, (rest, st1)) => s :: drain rest st1 := by
  induction lines generalizing st with
  | nil =>
      by_cases h : st.is_complete = true
      · simp [drain, next_state, h]
      · simp [drain, next_state, h]
  | cons line rest ih =>
      simp only [drain, next_state]
      by_cases h1 : (handle st line).chunk_goal_n ≤ get_n_chunks (handle st line)
      · simp [h1]
      · simp only [h1, if_false]
        by_cases h2 : (handle st line).is_complete = true
        · simp [h2]
        · simp [h2, ih]

@[simp]
theorem insert_line_buffer (s : MessageParserState) (line : Line) :
    (insert_line s line).buffer = s.buffer ++ line ++ ['\n'] := rfl

@[simp]
theorem insert_line_lang (s : MessageParserState) (line : Line) :
    (insert_line s line).lang = s.lang := rfl

@[simp]
theorem insert_line_text (s : MessageParserState) (line : Line) :
    (insert_line s line).text = s.text := rfl

@[simp]
theorem insert_line_in_code (s : MessageParserState) (line : Line) :
    (insert_line s line).is_in_code_block = s.is_in_code_block := rfl

@[simp]
theorem insert_line_goal (s : MessageParserState) (line : Line) :
    (insert_line s line).chunk_goal_n = s.chunk_goal_n := rfl

@[simp]
theorem finalize_buffer (s : MessageParserState) : (finalize s).buffer = [] := by
  unfold finalize
  by_cases h : s.is_in_code_block = true <;> simp [h]

@[simp]
theorem finalize_lang (s : MessageParserState) : (finalize s).lang = s.lang := by
  unfold finalize
  by_cases h : s.is_in_code_block = true <;> simp [h]

@[simp]
theorem finalize_in_code (s : MessageParserState) :
    (finalize s).is_in_code_block = s.is_in_code_block := by
  unfold finalize
  by_cases h : s.is_in_code_block = true <;> simp [h]

@[simp]
theorem finalize_goal (s : MessageParserState) :
    (finalize s).chunk_goal_n = s.chunk_goal_n := by
  unfold finalize
  by_cases h : s.is_in_code_block = true <;> simp [h]

theorem finalize_text_len (s : MessageParserState) :
    (finalize s).text.length ≤ s.buffer.length + (CODE_GUARD.length + 1) := by
  unfold finalize
  by_cases h : s.is_in_code_block = true <;> simp [h, insert_line]

theorem finalize_bound (s : MessageParserState) (hs : StateBound s) :
    StateBound (finalize s) := by
  obtain ⟨hb, ht, hg⟩ := hs
  refine ⟨?_, ?_, ?_⟩
  · simp
  · have := finalize_text_len s
    simp [CODE_GUARD] at this
    simp [MSG_MAX_LEN] at *
    omega
  · simpa using hg

@[simp]
theorem CODE_GUARD_length : CODE_GUARD.length = 3 := rfl

theorem handle_bound (s : MessageParserState) (line : Line)
    (hs : StateBound s) (hl : line.length ≤ MSG_CHUNK_LEN) :
    StateBound (handle s line) := by
  obtain ⟨hb, ht, hg⟩ := hs
  have hb1 : s.buffer.length ≤ 4001 := by simp [MSG_MAX_LEN] at hb; omega
  have ht1 : s.text.length ≤ 4005 := by simp [MSG_MAX_LEN] at ht; omega
  have hg1 : s.lang.length ≤ 497 := by
    simp [MSG_CHUNK_LEN, CODE_GUARD_length] at hg; omega
  have hl1 : line.length ≤ 500 := by simp [MSG_CHUNK_LEN] at hl; omega
  have hfin : (finalize s).text.length ≤ 4005 := by
    have hx := finalize_text_len s
    rw [CODE_GUARD_length] at hx
    omega
  cases hov : check_overflow s line with
  | true =>
      by_cases hp : CODE_GUARD <+: line <;>
        by_cases hc : s.is_in_code_block = true <;>
          refine ⟨?_, ?_, ?_⟩ <;>
            simp [handle, hov, hp, hc, List.isPrefixOf_iff_prefix,
              MSG_MAX_LEN, MSG_CHUNK_LEN, CODE_GUARD_length, StateBound] <;>
            omega
  | false =>
      have hsum : s.buffer.length + line.length ≤ 4000 := by
        have hx : ¬ (MSG_MAX_LEN < s.buffer.length + line.length) := by
          simpa [check_overflow] using hov
        simp [MSG_MAX_LEN] at hx
        omega
      by_cases hp : CODE_GUARD <+: line <;>
        by_cases hc : s.is_in_code_block = true <;>
          refine ⟨?_, ?_, ?_⟩ <;>
            simp [handle, hov, hp, hc, List.isPrefixOf_iff_prefix,
              MSG_MAX_LEN, MSG_CHUNK_LEN, CODE_GUARD_length, StateBound] <;>
            omega

theorem drain_bound (lines : List Line) (st : MessageParserState)
    (hs : StateBound st) (hl : ∀ l ∈ lines, l.length ≤ MSG_CHUNK_LEN) :
    ∀ s ∈ drain lines st, StateBound s := by
  induction lines generalizing st with
  | nil =>
      intro s hmem
      by_cases h : st.is_complete = true <;> simp [drain, h] at hmem
      subst hmem
      exact finalize_bound st hs
  | cons line rest ih =>
      intro s hmem
      have hline : line.length ≤ MSG_CHUNK_LEN := hl line (by simp)
      have hrest : ∀ l ∈ rest, l.length ≤ MSG_CHUNK_LEN := by
        intro l hlmem
        exact hl l (by simp [hlmem])
      have h1 : StateBound (handle st line) := handle_bound st line hs hline
      simp only [drain] at hmem
      have h2 : StateBound
          { handle st line with chunk_goal_n := (handle st line).chunk_goal_n + 1 } :=
        ⟨h1.1, h1.2.1, h1.2.2⟩
      have h3 : StateBound
          { buffer := (handle st line).buffer, text := (handle st line).text,
            is_complete := true, lang := (handle st line).lang,
            is_in_code_block := (handle st line).is_in_code_block,
            chunk_goal_n := 1 } :=
        ⟨h1.1, h1.2.1, h1.2.2⟩
      by_cases hgoal :
          (handle st line).chunk_goal_n ≤ get_n_chunks (handle st line)
      · simp only [hgoal, if_true] at hmem
        rcases List.mem_cons.mp hmem with h | h
        · subst h
          exact h2
        · exact ih _ h2 hrest s h
      · simp only [hgoal, if_false] at hmem
        by_cases hcomp : (handle st line).is_complete = true
        · simp only [hcomp, if_true] at hmem
          rcases List.mem_cons.mp hmem with h | h
          · subst h
            exact h3
          · exact ih _ h3 hrest s h
        · simp only [hcomp, if_false] at hmem
          exact ih _ h1 hrest s hmem

@[simp]
theorem handle_goal (s : MessageParserState) (line : Line) :
    (handle s line).chunk_goal_n = s.chunk_goal_n := by
  cases hov : check_overflow s line <;>
    by_cases hp : CODE_GUARD <+: line <;>
      by_cases hc : s.is_in_code_block = true <;>
        simp [handle, hov, hp, hc, List.isPrefixOf_iff_prefix]

theorem history_clear_lookup (m : MessagesHashMap) (cid : ChatId)
    (l : List ChatMessage) (h : history_lookup m cid = some l) :
    history_lookup (history_clear m cid) cid = some [] := by
  induction m with
  | nil => simp [history_lookup] at h
  | cons kv rest ih =>
      obtain ⟨k, v⟩ := kv
      by_cases hk : k = cid
      · simp [history_lookup, history_clear, hk]
      · simp only [history_lookup, history_clear, hk, if_false] at h ⊢
        exact ih h

theorem history_clear_absent (m : MessagesHashMap) (cid : ChatId)
    (h : history_lookup m cid = none) : history_clear m cid = m := by
  induction m with
  | nil => rfl
  | cons kv rest ih =>
      obtain ⟨k, v⟩ := kv
      by_cases hk : k = cid
      · simp [history_lookup, hk] at h
      · simp only [history_lookup, hk, if_false] at h
        simp [history_clear, hk, ih h]

theorem edit_loop_error (id : Nat) (post : List StreamItem) :
    ∀ (pre : List StreamItem) (text : List Char), pre.all is_ok_item = true →
      edit_loop id text (pre ++ Except.error () :: post) = edit_loop id text pre := by
  intro pre
  induction pre with
  | nil => intro text h; rfl
  | cons x rest ih =>
      intro text h
      cases x with
      | ok line =>
          simp only [List.cons_append, edit_loop, List.append_eq]
          rw [ih (text ++ line) (by simpa [is_ok_item] using h)]
      | error e => simp [is_ok_item] at h

@[simp]
theorem insert_line_is_complete (s : MessageParserState) (line : Line) :
    (insert_line s line).is_complete = s.is_complete := rfl

theorem handle_case_A (s : MessageParserState) (line : Line)
    (hov : check_overflow s line = false)
    (hp : CODE_GUARD.isPrefixOf line = false) :
    handle s line = insert_line { s with is_complete := false } line := by
  simp [handle, hov, hp]

theorem handle_case_B (s : MessageParserState) (line : Line)
    (hov : check_overflow s line = true)
    (hp : CODE_GUARD.isPrefixOf line = false)
    (hc : s.is_in_code_block = true) :
    handle s line =
      insert_line (insert_line (finalize s) (CODE_GUARD ++ s.lang)) line := by
  simp [handle, hov, hp, hc]

theorem handle_case_C (s : MessageParserState) (line : Line)
    (hov : check_overflow s line = true)
    (hp : CODE_GUARD.isPrefixOf line = false)
    (hc : s.is_in_code_block = false) :
    handle s line = insert_line (finalize s) line := by
  simp [handle, hov, hp, hc]

theorem handle_case_D (s : MessageParserState) (line : Line)
    (hov : check_overflow s line = false)
    (hp : CODE_GUARD.isPrefixOf line = true)
    (hc : s.is_in_code_block = false) :
    handle s line =
      insert_line
        { s with
            is_complete := false,
            lang := line.drop CODE_GUARD.length,
            is_in_code_block := true } line := by
  simp [handle, hov, hp, hc]

theorem handle_case_F (s : MessageParserState) (line : Line)
    (hov : check_overflow s line = true)
    (hp : CODE_GUARD.isPrefixOf line = true)
    (hc : s.is_in_code_block = true) :
    handle s line =
      insert_line { finalize s with is_in_code_block := false } line := by
  simp [handle, hov, hp, hc]

theorem finalize_of_out (s : MessageParserState)
    (h : s.is_in_code_block = false) :
    finalize s = { s with buffer := [], text := s.buffer, is_complete := true } := by
  simp [finalize, h]

theorem finalize_of_in (s : MessageParserState)
    (h : s.is_in_code_block = true) :
    finalize s =
      { s with
          buffer := [],
          text := s.buffer ++ CODE_GUARD ++ ['\n'],
          is_complete := true } := by
  simp [finalize, insert_line, h]

/-- Claim C6, counterexample: the claim says a line that is exactly a fence
marker after trimming toggles is_in_code_block; the line consisting of a
space followed by the marker trims to exactly the marker, yet handle does not
toggle (the source tests an untrimmed starts-with, not a trimmed-exact
match). -/
theorem c6_counterexample :
    (' ' :: CODE_GUARD).dropWhile (fun c => c = ' ') = CODE_GUARD ∧
    (handle parser_init (' ' :: CODE_GUARD)).is_in_code_block = false := by
  constructor
  · rfl
  · rfl

/-- Claim C6 as amended: a handled line toggles is_in_code_block if and only
if it starts with the fence marker, with no trimming; the language tag is the
untrimmed remainder of the line after the marker and is captured exactly when
the flag flips to open. -/
theorem c6_theorem (s : MessageParserState) (line : Line) :
    (handle s line).is_in_code_block =
      (if CODE_GUARD.isPrefixOf line then !s.is_in_code_block
       else s.is_in_code_block) ∧
    (handle s line).lang =
      (if CODE_GUARD.isPrefixOf line && !s.is_in_code_block then
        line.drop CODE_GUARD.length
       else s.lang) := by
  cases hov : check_overflow s line <;>
    by_cases hp : CODE_GUARD <+: line <;>
      by_cases hc : s.is_in_code_block = true <;>
        constructor <;>
          simp [handle, hov, hp, hc, List.isPrefixOf_iff_prefix]

/-- Claim C8, counterexample: on a backend stream that errors after one Ok
fragment, handle_msg stops performing transport actions but returns success
(the Bool true models the source returning Ok(())); the claim's assertion
that the error is propagated to the caller is false: the while-let loop of
src/main.rs swallows the Err item. -/
theorem c8_counterexample :
    handle_msg [Except.ok ['a'], Except.error (), Except.ok ['b']] =
      ([Action.typing, Action.create ['a']], true) := rfl

/-- Claim C8 as amended: when the backend stream errors mid-stream, the drive
loop performs no further transport actions for the turn and does not attempt
a final forced seal — its action trace equals the trace for the stream
truncated at the error — but the error is silently discarded rather than
propagated: handle_msg still returns Ok. -/
theorem c8_theorem (pre post : List StreamItem)
    (h : pre.all is_ok_item = true) :
    handle_msg (pre ++ Except.error () :: post) = handle_msg pre := by
  cases pre with
  | nil => rfl
  | cons x pre2 =>
      cases x with
      | error e => rfl
      | ok line =>
          simp only [List.cons_append, handle_msg, List.append_eq]
          rw [edit_loop_error 0 post pre2 line (by simpa [is_ok_item] using h)]

/-- Claim C8 witness at a concrete stream. -/
theorem c8_witness :
    handle_msg [Except.ok ['a'], Except.error (), Except.ok ['b']] =
      handle_msg [Except.ok ['a']] :=
  c8_theorem [Except.ok ['a']] [Except.ok ['b']] rfl

/-- Claim C9: clearing a conversation that holds prior turns makes a
subsequent read of that conversation return the empty sequence, and clearing
a conversation id that has never been accessed does not error and leaves the
store unchanged, creating no entry. -/
theorem c9_theorem (m1 m2 : MessagesHashMap) (cid1 cid2 : ChatId)
    (l : List ChatMessage)
    (h1 : history_lookup m1 cid1 = some l)
    (h2 : history_lookup m2 cid2 = none) :
    (history_get (history_clear m1 cid1) cid1).fst = [] ∧
    history_clear m2 cid2 = m2 := by
  constructor
  · simp [history_get, history_clear_lookup m1 cid1 l h1]
  · exact history_clear_absent m2 cid2 h2

/-- Claim C9 witness: a store with one conversation holding one turn. -/
theorem c9_witness :
    (history_get (history_clear [((1 : Int), [msg_u])] 1) 1).fst = [] ∧
    history_clear [((1 : Int), [msg_u])] 2 = [((1 : Int), [msg_u])] :=
  c9_theorem [((1 : Int), [msg_u])] [((1 : Int), [msg_u])] 1 2 [msg_u]
    (by decide) (by decide)

/-- Claim C10: on an empty input stream the first call to next_state still
finalizes and emits one sealed state whose text is empty (no fence was open,
so no closing fence line is appended), and once the state is complete with no
lines left every further call returns None and leaves the parser unchanged. -/
theorem c10_theorem :
    next_state [] parser_init = (some sealed_empty, ([], sealed_empty)) ∧
    ∀ st : MessageParserState, st.is_complete = true →
      next_state [] st = (none, ([], st)) := by
  constructor
  · rfl
  · intro st h
    simp [next_state, h]

/-- Claim C10 witness: the second and every further call returns None. -/
theorem c10_witness :
    next_state [] sealed_empty = (none, ([], sealed_empty)) :=
  c10_theorem.2 sealed_empty rfl

/-- Claim C5, counterexample: on the input lines hello, world the single
sealed text is hello newline world newline — insert_line appends a newline
after every line, including the very last one, so the claimed text without a
trailing newline is not what the parser produces. -/
theorem c5_counterexample :
    ((drain demo_hello parser_init).map (fun s => s.text)) = [hello_world_text] ∧
    decide (hello_world_text =
      ['h','e','l','l','o','\n','w','o','r','l','d']) = false := by
  constructor
  · rfl
  · rfl

/-- Claim C5 as amended: every handled line is appended to the buffer
followed by a newline, with no exception for the last line of input; on the
input lines hello, world exactly one seal is emitted, at end of stream, and
its text is hello newline world newline. -/
theorem c5_theorem :
    ((drain demo_hello parser_init).map (fun s => (s.is_complete, s.text))) =
      [(true, hello_world_text)] := rfl

/-- helper for the C7 counterexample: the emitted-state trace on a
600-character line followed by a 3600-character line, for any such pair of
non-fence lines. -/
theorem c7_general (l1 l2 : Line) (hl1 : l1.length = 600)
    (hl2 : l2.length = 3600)
    (hp1 : CODE_GUARD.isPrefixOf l1 = false)
    (hp2 : CODE_GUARD.isPrefixOf l2 = false) :
    ((drain [l1, l2] parser_init).map
      (fun s => (s.is_complete, s.chunk_goal_n))) = [(false, 2), (true, 3)] := by
  have hov1 : check_overflow parser_init l1 = false := by
    simp [check_overflow, parser_init, hl1, MSG_MAX_LEN]
  have h1 : handle parser_init l1 =
      { buffer := l1 ++ ['\n'], text := [], is_complete := false, lang := [],
        is_in_code_block := false, chunk_goal_n := 1 } := by
    rw [handle_case_A _ _ hov1 hp1]
    rfl
  have hov2 : check_overflow
      { buffer := l1 ++ ['\n'], text := [], is_complete := false, lang := [],
        is_in_code_block := false, chunk_goal_n := 2 } l2 = true := by
    simp [check_overflow, hl1, hl2, MSG_MAX_LEN]
  have h2 : handle
      { buffer := l1 ++ ['\n'], text := [], is_complete := false, lang := [],
        is_in_code_block := false, chunk_goal_n := 2 } l2 =
      { buffer := l2 ++ ['\n'], text := l1 ++ ['\n'], is_complete := true,
        lang := [], is_in_code_block := false, chunk_goal_n := 2 } := by
    rw [handle_case_C _ _ hov2 hp2 rfl]
    rfl
  simp [drain, h1, h2, get_n_chunks, MSG_CHUNK_LEN, hl1, hl2]

/-- Claim C7, counterexample: on a 600-character line followed by a
3600-character line the second emitted state is sealed (is_complete true) yet
its soft-flush threshold counter is 3, not 1: the chunk-count goal was
reached in the same step as the seal, and next_state increments the counter
instead of resetting it. -/
theorem c7_counterexample :
    ((drain goal_seal_input parser_init).map
      (fun s => (s.is_complete, s.chunk_goal_n))) = [(false, 2), (true, 3)] := by
  have h := c7_general (List.replicate 600 'a') (List.replicate 3600 'a')
    (by rw [List.length_replicate]) (by rw [List.length_replicate])
    (by decide) (by decide)
  simpa only [goal_seal_input] using h

/-- Claim C7 as amended: the soft-flush threshold counter is always at least
1 for every emitted state; it is reset to 1 by a seal only when the seal does
not coincide with the chunk-count goal being reached, and in the coinciding
case it is incremented instead. -/
theorem c7_theorem (lines : List Line) (st : MessageParserState)
    (h : 1 ≤ st.chunk_goal_n) :
    (drain lines st).all (fun s => decide (1 ≤ s.chunk_goal_n)) = true := by
  induction lines generalizing st with
  | nil =>
      by_cases hc : st.is_complete = true
      · simp [drain, hc]
      · simp [drain, hc, finalize_goal]
        omega
  | cons line rest ih =>
      have h1 : 1 ≤ (handle st line).chunk_goal_n := by
        rw [handle_goal]
        omega
      have h2 : (1 : Nat) ≤ (handle st line).chunk_goal_n + 1 := by omega
      simp only [drain]
      by_cases hg1 : (handle st line).chunk_goal_n ≤ get_n_chunks (handle st line)
      · simp only [hg1, if_true, List.all_cons, Bool.and_eq_true]
        constructor
        · simpa using h2
        · exact ih _ (by simpa using h2)
      · simp only [hg1, if_false]
        by_cases hcm : (handle st line).is_complete = true
        · simp only [hcm, if_true, List.all_cons, Bool.and_eq_true]
          constructor
          · simp
          · exact ih _ (by simp)
        · simp only [hcm, if_false]
          exact ih _ h1

/-- Claim C7 witness at a concrete input. -/
theorem c7_witness :
    (drain demo_hello parser_init).all
      (fun s => decide (1 ≤ s.chunk_goal_n)) = true :=
  c7_theorem demo_hello parser_init (by decide)

theorem c1_general (l : Line) (hl : l.length = 4000)
    (hp : CODE_GUARD.isPrefixOf l = false) :
    ((drain [l] parser_init).map (fun s => (s.buffer.length, s.text.length))) =
      [(4001, 0), (0, 4001)] := by
  have hov : check_overflow parser_init l = false := by
    simp [check_overflow, parser_init, hl, MSG_MAX_LEN]
  have h1 : handle parser_init l =
      { buffer := l ++ ['\n'], text := [], is_complete := false, lang := [],
        is_in_code_block := false, chunk_goal_n := 1 } := by
    rw [handle_case_A _ _ hov hp]
    rfl
  simp [drain, h1, get_n_chunks, MSG_CHUNK_LEN, finalize, insert_line, hl]

/-- Claim C1, counterexample: a single line of exactly 4000 characters is
accepted without a forced seal (check_overflow does not count the newline
that insert_line appends), so the parser emits a soft-flush state whose
buffer holds 4001 characters and then a sealed state whose text holds 4001
characters, both exceeding MSG_MAX_LEN. -/
theorem c1_counterexample :
    ((drain [line4000] parser_init).map
      (fun s => (s.buffer.length, s.text.length))) = [(4001, 0), (0, 4001)] ∧
    decide (4001 ≤ MSG_MAX_LEN) = false := by
  constructor
  · have h := c1_general (List.replicate 4000 'a')
      (by rw [List.length_replicate]) (by decide)
    simpa only [line4000] using h
  · decide

/-- Claim C1 as amended: emitted chunks can exceed MSG_MAX_LEN, because
check_overflow ignores the newline appended after each line and finalize may
append a closing fence line; what holds is that when every input line has at
most MSG_CHUNK_LEN characters, every emitted state's buffer has at most
MSG_MAX_LEN + 1 characters and every sealed text at most MSG_MAX_LEN + 5
characters (a single line longer than the ceiling is appended whole and can
exceed any bound). -/
theorem c1_theorem (lines : List Line) (st : MessageParserState)
    (hst : StateBound st) (hl : ∀ l ∈ lines, l.length ≤ MSG_CHUNK_LEN) :
    (drain lines st).all
      (fun s => decide (s.buffer.length ≤ MSG_MAX_LEN + 1) &&
        decide (s.text.length ≤ MSG_MAX_LEN + 5)) = true := by
  rw [List.all_eq_true]
  intro s hs
  have h := drain_bound lines st hst hl s hs
  simp only [Bool.and_eq_true, decide_eq_true_eq]
  exact ⟨h.1, h.2.1⟩

/-- Claim C1 witness at a concrete input. -/
theorem c1_witness :
    (drain demo_hello parser_init).all
      (fun s => decide (s.buffer.length ≤ MSG_MAX_LEN + 1) &&
        decide (s.text.length ≤ MSG_MAX_LEN + 5)) = true :=
  c1_theorem demo_hello parser_init ⟨by decide, by decide, by decide⟩ (by decide)

/-- Claim C2, code evaluation: on a response stream of three 3000-character
fragments (9000 characters in total, far past MSG_MAX_LEN), handle_msg
performs exactly one create and then edits the same held message id with the
ever-growing full text; no sealed state is ever acted on, the id is never
dropped, and no second message is created. -/
theorem c2_single_create :
    handle_msg [Except.ok frag_a, Except.ok frag_b, Except.ok frag_c] =
      ([Action.typing, Action.create frag_a,
        Action.edit 0 (frag_a ++ frag_b),
        Action.edit 0 (frag_a ++ frag_b ++ frag_c)], true) ∧
    ((handle_msg [Except.ok frag_a, Except.ok frag_b,
      Except.ok frag_c]).fst.countP is_create) = 1 ∧
    (frag_a ++ frag_b ++ frag_c).length = 9000 ∧
    decide (MSG_MAX_LEN < 9000) = true := by
  refine ⟨rfl, rfl, ?_, by decide⟩
  simp only [frag_a, frag_b, frag_c, List.length_append, List.length_replicate]

@[simp]
theorem fence_q_length : fence_q.length = 4 := rfl

theorem drain_nil_done (st : MessageParserState) (h : st.is_complete = true) :
    drain [] st = [] := by
  simp [drain, h]

theorem drain_nil_flush (st st2 : MessageParserState)
    (h : st.is_complete = false) (hfin : finalize st = st2) :
    drain [] st = [st2] := by
  simp [drain, h, hfin]

theorem drain_cons_skip (line : Line) (rest : List Line)
    (st st2 : MessageParserState) (h : handle st line = st2)
    (hcond : ¬ (st2.chunk_goal_n ≤ get_n_chunks st2))
    (hcomp : st2.is_complete = false) :
    drain (line :: rest) st = drain rest st2 := by
  simp [drain, h, hcond, hcomp]

theorem drain_cons_flush (line : Line) (rest : List Line)
    (st st2 st3 : MessageParserState) (h : handle st line = st2)
    (hcond : st2.chunk_goal_n ≤ get_n_chunks st2)
    (hup : { st2 with chunk_goal_n := st2.chunk_goal_n + 1 } = st3) :
    drain (line :: rest) st = st3 :: drain rest st3 := by
  simp [drain, h, hcond, hup]

theorem drain_cons_seal (line : Line) (rest : List Line)
    (st st2 st3 : MessageParserState) (h : handle st line = st2)
    (hcond : ¬ (st2.chunk_goal_n ≤ get_n_chunks st2))
    (hcomp : st2.is_complete = true)
    (hup : { st2 with chunk_goal_n := 1 } = st3) :
    drain (line :: rest) st = st3 :: drain rest st3 := by
  subst hup
  simp [drain, h, hcond, hcomp]

theorem c3_general (B : Line) (hB : B.length = 3995)
    (hpB : CODE_GUARD.isPrefixOf B = false) :
    ((drain [fence_q, B, CODE_GUARD, ['b']] parser_init).map
      (fun s => (s.is_complete, s.text))) =
      [(false, []),
       (true, ((fence_q ++ ['\n']) ++ B ++ ['\n']) ++ CODE_GUARD ++ ['\n']),
       (true, (CODE_GUARD ++ ['\n']) ++ ['b'] ++ ['\n'])] := by
  have h1 : handle parser_init fence_q =
      { buffer := fence_q ++ ['\n'], text := [], is_complete := false,
        lang := ['q'], is_in_code_block := true, chunk_goal_n := 1 } := by
    rw [handle_case_D _ _ (by decide) (by decide) rfl]
    rfl
  have hov2 : check_overflow
      { buffer := fence_q ++ ['\n'], text := [], is_complete := false,
        lang := ['q'], is_in_code_block := true, chunk_goal_n := 1 } B
      = false := by
    simp [check_overflow, hB, MSG_MAX_LEN]
  have h2 : handle
      { buffer := fence_q ++ ['\n'], text := [], is_complete := false,
        lang := ['q'], is_in_code_block := true, chunk_goal_n := 1 } B =
      { buffer := (fence_q ++ ['\n']) ++ B ++ ['\n'], text := [],
        is_complete := false, lang := ['q'], is_in_code_block := true,
        chunk_goal_n := 1 } := by
    rw [handle_case_A _ _ hov2 hpB]
    rfl
  have hcond2 : (1 : Nat) ≤ get_n_chunks
      { buffer := (fence_q ++ ['\n']) ++ B ++ ['\n'], text := [],
        is_complete := false, lang := ['q'], is_in_code_block := true,
        chunk_goal_n := 1 } := by
    simp only [get_n_chunks, MSG_CHUNK_LEN, List.length_append,
      List.length_cons, List.length_nil, fence_q_length, hB]
    norm_num
  have hov3 : check_overflow
      { buffer := (fence_q ++ ['\n']) ++ B ++ ['\n'], text := [],
        is_complete := false, lang := ['q'], is_in_code_block := true,
        chunk_goal_n := 2 } CODE_GUARD = true := by
    simp [check_overflow, hB, MSG_MAX_LEN, CODE_GUARD_length]
  have h3 : handle
      { buffer := (fence_q ++ ['\n']) ++ B ++ ['\n'], text := [],
        is_complete := false, lang := ['q'], is_in_code_block := true,
        chunk_goal_n := 2 } CODE_GUARD =
      { buffer := CODE_GUARD ++ ['\n'],
        text := ((fence_q ++ ['\n']) ++ B ++ ['\n']) ++ CODE_GUARD ++ ['\n'],
        is_complete := true, lang := ['q'], is_in_code_block := false,
        chunk_goal_n := 2 } := by
    rw [handle_case_F _ _ hov3 rfl rfl]
    rfl
  have hcond3 : ¬ ((2 : Nat) ≤ get_n_chunks
      { buffer := CODE_GUARD ++ ['\n'],
        text := ((fence_q ++ ['\n']) ++ B ++ ['\n']) ++ CODE_GUARD ++ ['\n'],
        is_complete := true, lang := ['q'], is_in_code_block := false,
        chunk_goal_n := 2 }) := by
    simp only [get_n_chunks, MSG_CHUNK_LEN, List.length_append,
      List.length_cons, List.length_nil, CODE_GUARD_length]
    norm_num
  have h4 : handle
      { buffer := CODE_GUARD ++ ['\n'],
        text := ((fence_q ++ ['\n']) ++ B ++ ['\n']) ++ CODE_GUARD ++ ['\n'],
        is_complete := true, lang := ['q'], is_in_code_block := false,
        chunk_goal_n := 1 } ['b'] =
      { buffer := (CODE_GUARD ++ ['\n']) ++ ['b'] ++ ['\n'],
        text := ((fence_q ++ ['\n']) ++ B ++ ['\n']) ++ CODE_GUARD ++ ['\n'],
        is_complete := false, lang := ['q'], is_in_code_block := false,
        chunk_goal_n := 1 } := by
    rw [handle_case_A _ _ (by simp [check_overflow, MSG_MAX_LEN]) (by decide)]
    rfl
  have hcond4 : ¬ ((1 : Nat) ≤ get_n_chunks
      { buffer := (CODE_GUARD ++ ['\n']) ++ ['b'] ++ ['\n'],
        text := ((fence_q ++ ['\n']) ++ B ++ ['\n']) ++ CODE_GUARD ++ ['\n'],
        is_complete := false, lang := ['q'], is_in_code_block := false,
        chunk_goal_n := 1 }) := by
    simp only [get_n_chunks, MSG_CHUNK_LEN, List.length_append,
      List.length_cons, List.length_nil, CODE_GUARD_length]
    norm_num
  rw [drain_cons_skip fence_q [B, CODE_GUARD, ['b']] parser_init _ h1
      (by decide) rfl]
  rw [drain_cons_flush B [CODE_GUARD, ['b']] _ _
      { buffer := (fence_q ++ ['\n']) ++ B ++ ['\n'], text := [],
        is_complete := false, lang := ['q'], is_in_code_block := true,
        chunk_goal_n := 2 } h2 hcond2 rfl]
  rw [drain_cons_seal CODE_GUARD [['b']] _ _
      { buffer := CODE_GUARD ++ ['\n'],
        text := ((fence_q ++ ['\n']) ++ B ++ ['\n']) ++ CODE_GUARD ++ ['\n'],
        is_complete := true, lang := ['q'], is_in_code_block := false,
        chunk_goal_n := 1 } h3 hcond3 rfl rfl]
  rw [drain_cons_skip ['b'] [] _ _ h4 hcond4 rfl]
  rw [drain_nil_flush
      { buffer := (CODE_GUARD ++ ['\n']) ++ ['b'] ++ ['\n'],
        text := ((fence_q ++ ['\n']) ++ B ++ ['\n']) ++ CODE_GUARD ++ ['\n'],
        is_complete := false, lang := ['q'], is_in_code_block := false,
        chunk_goal_n := 1 }
      { buffer := [],
        text := (CODE_GUARD ++ ['\n']) ++ ['b'] ++ ['\n'],
        is_complete := true, lang := ['q'], is_in_code_block := false,
        chunk_goal_n := 1 } rfl rfl]
  rfl

/-- Claim C3, code evaluation at the failing input: after a closing fence
line itself forces a seal, the fence line is carried into the new buffer
while the flag is toggled off, so the final sealed text is a fence-marker
line followed by the line b — it contains an odd number of fence-marker
lines and ends inside an open code fence, contradicting the claim that every
sealed text is syntactically closed. -/
theorem c3_unbalanced_seal :
    ((drain fence_seal_input parser_init).map
      (fun s => (s.is_complete, s.text))) =
      [(false, []),
       (true, ((fence_q ++ ['\n']) ++ body3995 ++ ['\n']) ++ CODE_GUARD ++ ['\n']),
       (true, (CODE_GUARD ++ ['\n']) ++ ['b'] ++ ['\n'])] ∧
    ends_in_open_fence ((CODE_GUARD ++ ['\n']) ++ ['b'] ++ ['\n']) = true := by
  constructor
  · rw [fence_seal_input]
    exact c3_general body3995 (by rw [body3995, List.length_replicate]) (by decide)
  · decide

theorem c4_general (B : Line) (hB : B.length = 3995)
    (hpB : CODE_GUARD.isPrefixOf B = false) :
    ((drain [fence_q, B, ['b']] parser_init).map
      (fun s => (s.is_complete, s.text))) =
      [(false, []),
       (true, ((fence_q ++ ['\n']) ++ B ++ ['\n']) ++ CODE_GUARD ++ ['\n'])] := by
  have h1 : handle parser_init fence_q =
      { buffer := fence_q ++ ['\n'], text := [], is_complete := false,
        lang := ['q'], is_in_code_block := true, chunk_goal_n := 1 } := by
    rw [handle_case_D _ _ (by decide) (by decide) rfl]
    rfl
  have hov2 : check_overflow
      { buffer := fence_q ++ ['\n'], text := [], is_complete := false,
        lang := ['q'], is_in_code_block := true, chunk_goal_n := 1 } B
      = false := by
    simp [check_overflow, hB, MSG_MAX_LEN]
  have h2 : handle
      { buffer := fence_q ++ ['\n'], text := [], is_complete := false,
        lang := ['q'], is_in_code_block := true, chunk_goal_n := 1 } B =
      { buffer := (fence_q ++ ['\n']) ++ B ++ ['\n'], text := [],
        is_complete := false, lang := ['q'], is_in_code_block := true,
        chunk_goal_n := 1 } := by
    rw [handle_case_A _ _ hov2 hpB]
    rfl
  have hcond2 : (1 : Nat) ≤ get_n_chunks
      { buffer := (fence_q ++ ['\n']) ++ B ++ ['\n'], text := [],
        is_complete := false, lang := ['q'], is_in_code_block := true,
        chunk_goal_n := 1 } := by
    simp only [get_n_chunks, MSG_CHUNK_LEN, List.length_append,
      List.length_cons, List.length_nil, fence_q_length, hB]
    norm_num
  have hov3 : check_overflow
      { buffer := (fence_q ++ ['\n']) ++ B ++ ['\n'], text := [],
        is_complete := false, lang := ['q'], is_in_code_block := true,
        chunk_goal_n := 2 } ['b'] = true := by
    simp [check_overflow, hB, MSG_MAX_LEN]
  have h3 : handle
      { buffer := (fence_q ++ ['\n']) ++ B ++ ['\n'], text := [],
        is_complete := false, lang := ['q'], is_in_code_block := true,
        chunk_goal_n := 2 } ['b'] =
      { buffer := ((CODE_GUARD ++ ['q']) ++ ['\n']) ++ ['b'] ++ ['\n'],
        text := ((fence_q ++ ['\n']) ++ B ++ ['\n']) ++ CODE_GUARD ++ ['\n'],
        is_complete := true, lang := ['q'], is_in_code_block := true,
        chunk_goal_n := 2 } := by
    rw [handle_case_B _ _ hov3 (by decide) rfl]
    rfl
  have hcond3 : ¬ ((2 : Nat) ≤ get_n_chunks
      { buffer := ((CODE_GUARD ++ ['q']) ++ ['\n']) ++ ['b'] ++ ['\n'],
        text := ((fence_q ++ ['\n']) ++ B ++ ['\n']) ++ CODE_GUARD ++ ['\n'],
        is_complete := true, lang := ['q'], is_in_code_block := true,
        chunk_goal_n := 2 }) := by
    simp only [get_n_chunks, MSG_CHUNK_LEN, List.length_append,
      List.length_cons, List.length_nil, CODE_GUARD_length]
    norm_num
  rw [drain_cons_skip fence_q [B, ['b']] parser_init _ h1 (by decide) rfl]
  rw [drain_cons_flush B [['b']] _ _
      { buffer := (fence_q ++ ['\n']) ++ B ++ ['\n'], text := [],
        is_complete := false, lang := ['q'], is_in_code_block := true,
        chunk_goal_n := 2 } h2 hcond2 rfl]
  rw [drain_cons_seal ['b'] [] _ _
      { buffer := ((CODE_GUARD ++ ['q']) ++ ['\n']) ++ ['b'] ++ ['\n'],
        text := ((fence_q ++ ['\n']) ++ B ++ ['\n']) ++ CODE_GUARD ++ ['\n'],
        is_complete := true, lang := ['q'], is_in_code_block := true,
        chunk_goal_n := 1 } h3 hcond3 rfl rfl]
  rw [drain_nil_done _ rfl]
  rfl

/-- Claim C4, code evaluation at the failing input: a code block plus
surrounding text exceeding MSG_MAX_LEN yields only ONE sealed chunk — the
first, which does end with a closing fence line — while the continuation
buffer holding the reopened fence and the line b is silently dropped when the
stream ends, because next_state keeps is_complete true and never seals the
leftover buffer; the claimed second sealed chunk beginning with the reopened
fence never appears, and the character b occurs nowhere in any emitted
text. -/
theorem c4_lost_line :
    ((drain lost_line_input parser_init).map
      (fun s => (s.is_complete, s.text))) =
      [(false, []),
       (true, ((fence_q ++ ['\n']) ++ body3995 ++ ['\n']) ++ CODE_GUARD ++ ['\n'])] ∧
    ((drain lost_line_input parser_init).countP (fun s => s.is_complete)) = 1 ∧
    (((fence_q ++ ['\n']) ++ body3995 ++ ['\n']) ++ CODE_GUARD ++ ['\n']).count 'b'
      = 0 := by
  have hmap : ((drain lost_line_input parser_init).map
      (fun s => (s.is_complete, s.text))) =
      [(false, []),
       (true, ((fence_q ++ ['\n']) ++ body3995 ++ ['\n']) ++ CODE_GUARD ++ ['\n'])] := by
    rw [lost_line_input]
    exact c4_general body3995 (by rw [body3995, List.length_replicate]) (by decide)
  refine ⟨hmap, ?_, ?_⟩
  · have h := congrArg
      (fun L : List (Bool × List Char) => L.countP (fun p => p.fst)) hmap
    simpa [List.countP_map, Function.comp] using h
  · rw [List.count_eq_zero]
    simp only [fence_q, body3995, CODE_GUARD, List.mem_append, List.mem_cons,
      List.mem_singleton, List.mem_replicate, List.not_mem_nil]
    decide

end SerasBot
